import Mathlib

/-!
Verification of the Server Shepherd log-monitoring backend.

The definitions below are a shallow embedding of `src/backend.py` (and, for
the broadcast claims, of `src/backend/app/main.py`).  Python strings are
modelled as `String`/`List Char`, Python ints as `Int`, floats (timestamps,
error rates) as `ℚ`, dict-based records as structures with `Option` fields
where a key may be absent.  Each embedded function keeps the name of the
Python function it translates.
-/

namespace Shepherd

/-- The characters Python's `str.strip()` / `str.split()` treat as
whitespace. -/
def isPySpace (c : Char) : Bool :=
  c = ' ' || c = '\t' || c = '\n' || c = '\r' || c = '\x0b' || c = '\x0c'

/-- Python `s.strip()` on a list of characters. -/
def pyStrip (l : List Char) : List Char :=
  ((l.dropWhile isPySpace).reverse.dropWhile isPySpace).reverse

/-- Python `s.split(sep)` for a one-character separator: keeps empty
segments, and the result is always non-empty. -/
def splitOnChar (sep : Char) (l : List Char) : List (List Char) :=
  match l with
  | [] => [[]]
  | x :: xs =>
    match splitOnChar sep xs with
    | [] => [[x]]
    | w :: ws => if x = sep then [] :: w :: ws else (x :: w) :: ws

/-- Helper for `pyWords`: `acc` is the current in-progress word, reversed. -/
def pyWordsGo : List Char → List Char → List String
  | [], acc => if acc.isEmpty then [] else [String.mk acc.reverse]
  | c :: cs, acc =>
    if isPySpace c then
      if acc.isEmpty then pyWordsGo cs []
      else String.mk acc.reverse :: pyWordsGo cs []
    else pyWordsGo cs (c :: acc)

/-- Python `s.split()` with no argument: split on runs of whitespace,
dropping empty tokens. -/
def pyWords (l : List Char) : List String := pyWordsGo l []

/-- Digits of a decimal numeral; `none` unless the list is non-empty and
all digits. -/
def digitsToNat : List Char → Option Nat
  | [] => none
  | [c] => if c.isDigit then some (c.toNat - '0'.toNat) else none
  | c :: cs =>
    if c.isDigit then
      (digitsToNat cs).map (fun n => (c.toNat - '0'.toNat) * 10 ^ cs.length + n)
    else none

/-- Python `int(s)` on a token with no surrounding whitespace: optional
sign followed by decimal digits; `none` models `ValueError`. -/
def pyToInt (s : String) : Option Int :=
  match s.toList with
  | '-' :: rest => (digitsToNat rest).map (fun n => -(n : Int))
  | '+' :: rest => (digitsToNat rest).map (fun n => (n : Int))
  | l => (digitsToNat l).map (fun n => (n : Int))

/-- The dict returned by `parse_nginx_log` (field names as in the code). -/
structure ParsedData where
  status_code : Int
  ip : String
  method : String
  path : String
  size : Int
  user_agent : String
deriving Repr, DecidableEq

/-- The default record the parser returns on empty or malformed input. -/
def defaultParsed : ParsedData :=
  { status_code := 500, ip := "unknown", method := "UNKNOWN", path := "/",
    size := 0, user_agent := "unknown" }

/-- Embedding of `parse_nginx_log` (`src/backend.py:71-133`). -/
def parse_nginx_log (log_line : String) : ParsedData :=
  if pyStrip log_line.toList = [] then defaultParsed
  else
    let parts := splitOnChar '"' log_line.toList
    if parts.length < 3 then
      match pyWords log_line.toList with
      | [] => defaultParsed
      | w :: _ => { defaultParsed with ip := w }
    else
      let ip_part := pyStrip (parts.headD [])
      let ip := if ip_part.isEmpty then "unknown" else (pyWords ip_part).headD "unknown"
      let request_parts := pyWords (parts.getD 1 [])
      let method := request_parts.headD "UNKNOWN"
      let path := request_parts.getD 1 "/"
      let status_size_part := pyWords (pyStrip (parts.getD 2 []))
      let status_code : Int :=
        match status_size_part with
        | [] => 500
        | t :: _ => (pyToInt t).getD 500
      let size : Int :=
        match status_size_part with
        | _ :: t :: _ => (pyToInt t).getD 0
        | _ => 0
      let user_agent :=
        match parts.drop 3 with
        | ua :: _ => String.mk ua
        | [] => "unknown"
      { status_code := status_code, ip := ip, method := method, path := path,
        size := size, user_agent := user_agent }

/-- A stored log entry: the dict built per line in `handle_tcp_connection`.
`parsed_data` is `none` when the key is absent; `acknowledged` and
`acknowledged_at` model keys that are absent until `acknowledge_error`
sets them (`acknowledged = false` / `acknowledged_at = none` until then). -/
structure LogRecord where
  id : String
  timestamp : ℚ
  raw_line : String
  source : String
  parsed_data : Option ParsedData
  acknowledged : Bool := false
  acknowledged_at : Option ℚ := none
deriving Repr, DecidableEq

/-- One buffer append as in `handle_tcp_connection`
(`src/backend.py:173-176`): `log_buffer.append(log_data)` followed by
`log_buffer.pop(0)` when the length exceeds 1000. -/
def appendLog (buf : List LogRecord) (r : LogRecord) : List LogRecord :=
  if 1000 < (buf ++ [r]).length then (buf ++ [r]).drop 1 else buf ++ [r]

/-- A whole sequence of appends, oldest first. -/
def appendAll (buf : List LogRecord) (l : List LogRecord) : List LogRecord :=
  l.foldl appendLog buf

/-- Embedding of the id assignment (`src/backend.py:171`): the
ingestion-time identifier, milliseconds since the epoch joined to
`hash(line) % 10000` by an underscore.  `pyhash` stands for Python's builtin string hash
(a fixed function within one process), `ms` for `int(time.time()*1000)`
read at the moment the line is processed. -/
def assign_id (pyhash : String → Int) (ms : Nat) (line : String) : String :=
  toString ms ++ "_" ++ toString (pyhash line % 10000)

/-- The record `handle_tcp_connection` builds for one decoded JSON line
(`src/backend.py:166-171`): parse the raw log text, attach it, and
assign the id derived from the ingestion millisecond and the line hash. -/
def ingestLine (pyhash : String → Int) (ms : Nat) (line : String)
    (timestamp : ℚ) (raw_line source : String) : LogRecord :=
  { id := assign_id pyhash ms line, timestamp := timestamp,
    raw_line := raw_line, source := source,
    parsed_data := some (parse_nginx_log raw_line) }

/-- Result of the `/acknowledge` endpoint: the JSON bodies
`{"status": "acknowledged", ...}` and `{"status": "not_found", ...}`. -/
inductive AckResult where
  | acknowledged (log_id : String)
  | not_found (log_id : String)
deriving Repr, DecidableEq

/-- Embedding of `acknowledge_error` (`src/backend.py:259-269`): scan the
buffer front to back; on the first record whose id matches, set
`acknowledged` and stamp `acknowledged_at` with the server clock `now`
(`time.time()` at the call).  `req_timestamp` is the `timestamp` field of
the request body, which the handler never reads. -/
def acknowledge_error (buf : List LogRecord) (log_id : String)
    (req_timestamp : ℚ) (now : ℚ) : List LogRecord × AckResult :=
  match buf with
  | [] => ([], .not_found log_id)
  | r :: rest =>
    if r.id = log_id then
      ({ r with acknowledged := true, acknowledged_at := some now } :: rest,
       .acknowledged log_id)
    else
      let p := acknowledge_error rest log_id req_timestamp now
      (r :: p.1, p.2)

/-- The in-place mutation `acknowledge_error` performs on the matched
record: set `acknowledged` and stamp `acknowledged_at` with the server
clock. -/
def ackMark (r : LogRecord) (now : ℚ) : LogRecord :=
  { r with acknowledged := true, acknowledged_at := some now }

/-- The lookup the query layer performs: the first record carrying the
given id (the scan inside `acknowledge_error`). -/
def find_by_id (buf : List LogRecord) (log_id : String) : Option LogRecord :=
  buf.find? (fun r => r.id == log_id)

/-- The JSON body returned by `/stats`. -/
structure Stats where
  total_logs : Nat
  error_count : Nat
  success_count : Nat
  error_rate : ℚ
deriving Repr, DecidableEq

/-- The status a record contributes to `/stats`: the parsed status code
when present, else the default 200 supplied by the chained `get` calls
(`src/backend.py:277`). -/
def effStatus (r : LogRecord) : Int :=
  match r.parsed_data with
  | some p => p.status_code
  | none => 200

/-- Embedding of `get_stats` (`src/backend.py:271-286`). -/
def get_stats (buf : List LogRecord) : Stats :=
  if buf.isEmpty then
    { total_logs := 0, error_count := 0, success_count := 0, error_rate := 0 }
  else
    let error_count := (buf.filter (fun r => 400 ≤ effStatus r)).length
    { total_logs := buf.length, error_count := error_count,
      success_count := buf.length - error_count,
      error_rate := (error_count : ℚ) / (buf.length : ℚ) }

/-- Python slice `l[a:]` with only a start index: a negative start counts
from the end (clamped at 0), a non-negative one from the front. -/
def pySliceFrom (a : Int) (l : List α) : List α :=
  if a < 0 then l.drop (l.length - (-a).toNat) else l.drop a.toNat

/-- Embedding of `get_recent_logs` (`src/backend.py:254-257`):
`log_buffer[-limit:]`. -/
def get_recent_logs (buf : List LogRecord) (limit : Int) : List LogRecord :=
  pySliceFrom (-limit) buf

/-- A subscriber channel; `cid` models the identity of the WebSocket
object held in `active_connections`. -/
structure Channel where
  cid : Nat
deriving Repr, DecidableEq

/-- Embedding of `broadcast_log_data` (`src/backend.py:135-149`) for one
message: `sendOk c` says whether `connection.send_text` succeeds on `c`
during this broadcast.  Sends are attempted on every registered channel;
the failed ones are then removed with `list.remove` (first occurrence).
Returns the connection list after removal together with the channels
whose send succeeded (those that received the message). -/
def broadcast_log_data (sendOk : Channel → Bool) (active : List Channel) :
    List Channel × List Channel :=
  if active.isEmpty then (active, [])
  else
    let disconnected := active.filter (fun c => !(sendOk c))
    (disconnected.foldl (fun acc c => acc.erase c) active,
     active.filter sendOk)

/-- Embedding of `ConnectionManager.broadcast`
(`src/backend/app/main.py:39-49`): a failed send is only logged; the
membership list is left untouched. -/
def ConnectionManager_broadcast (sendOk : Channel → Bool)
    (active : List Channel) : List Channel × List Channel :=
  if active.isEmpty then (active, [])
  else (active, active.filter sendOk)

/-- A minimal concrete record used in witnesses and counterexamples. -/
def recA : LogRecord :=
  { id := "a", timestamp := 0, raw_line := "", source := "", parsed_data := none }

/-- Records used to exercise the capacity theorem: 1001 appends. -/
def c2List : List LogRecord :=
  (List.range 1001).map (fun i =>
    { id := toString i, timestamp := 0, raw_line := "", source := "",
      parsed_data := none })

/-- Concrete records carrying a given parsed status code, for the stats
scenario of the spec. -/
def mkStatusRecord (n : Int) : LogRecord :=
  { id := "", timestamp := 0, raw_line := "", source := "",
    parsed_data := some { defaultParsed with status_code := n } }

/-- The raw line of the spec's end-to-end scenario. -/
def sampleLine : String :=
  "203.0.113.5 - - [10/Oct/2023:13:55:36 +0000] \"GET /api/data HTTP/1.1\" 404 512 \"-\" \"curl/7.68.0\""

/-- C1: parsing the end-to-end sample line yields status_code 404,
client_ip "203.0.113.5", method "GET", path "/api/data" and
response_size 512 as the claim states, but the user_agent field receives
quote-delimited segment 3 — the referer, "-" — rather than
"curl/7.68.0" (which sits in segment 5): the code contradicts its own
format comment, which lists referer and user_agent as distinct quoted
fields. -/
theorem C1_parse_sample_line :
    parse_nginx_log sampleLine =
      { status_code := 404, ip := "203.0.113.5", method := "GET",
        path := "/api/data", size := 512, user_agent := "-" } ∧
    (parse_nginx_log sampleLine).user_agent ≠ "curl/7.68.0" := by
  decide

/-- C3 counterexample: the malformed (quote-free, non-empty) line
"1.2.3.4 oops" does not map to the default record: every field is
defaulted except client_ip, which is set to the first whitespace token
"1.2.3.4" instead of "unknown". -/
theorem C3_counterexample :
    parse_nginx_log "1.2.3.4 oops" ≠ defaultParsed ∧
    (parse_nginx_log "1.2.3.4 oops").ip = "1.2.3.4" := by
  decide

/-- C3 (amended): every empty or whitespace-only input yields exactly the
default record; every other input with fewer than three quote-delimited
segments yields the default record in every field except client_ip,
which becomes the input's first whitespace token; the parser is a total
function, so no error ever propagates to the caller. -/
theorem C3_parse_malformed (s : String) :
    (pyStrip s.toList = [] → parse_nginx_log s = defaultParsed) ∧
    (pyStrip s.toList ≠ [] → (splitOnChar '"' s.toList).length < 3 →
      parse_nginx_log s =
        { defaultParsed with ip := (pyWords s.toList).headD "unknown" }) := by
  constructor
  · intro h
    rw [show s.toList = s.data from rfl] at h
    simp [parse_nginx_log, h]
  · intro h1 h2
    rw [show s.toList = s.data from rfl] at h1 h2
    cases hw : pyWords s.data with
    | nil => simp [parse_nginx_log, h1, h2, hw, defaultParsed]
    | cons w ws => simp [parse_nginx_log, h1, h2, hw, defaultParsed]

/-- C3 witness: the amended theorem applied to the concrete malformed
input "a b". -/
theorem C3_parse_malformed_witness :
    pyStrip "a b".toList ≠ [] ∧ (splitOnChar '"' "a b".toList).length < 3 ∧
    parse_nginx_log "a b" =
      { defaultParsed with ip := (pyWords "a b".toList).headD "unknown" } :=
  ⟨by decide, by decide, (C3_parse_malformed "a b").2 (by decide) (by decide)⟩

/-- One append keeps the buffer within capacity. -/
theorem appendLog_length_le (buf : List LogRecord) (r : LogRecord)
    (h : buf.length ≤ 1000) : (appendLog buf r).length ≤ 1000 := by
  unfold appendLog
  split <;> simp_all

/-- Closed form of a run of appends: starting within capacity, the buffer
is the suffix of the whole input past the overflow. -/
theorem appendAll_eq_drop (l : List LogRecord) :
    ∀ buf : List LogRecord, buf.length ≤ 1000 →
      appendAll buf l = (buf ++ l).drop (buf.length + l.length - 1000) := by
  induction l with
  | nil =>
    intro buf h
    simp [appendAll, Nat.sub_eq_zero_of_le h]
  | cons r l ih =>
    intro buf h
    show appendAll (appendLog buf r) l = _
    have hsplit : (buf ++ [r]) ++ l = buf ++ r :: l := by
      rw [List.append_assoc, List.singleton_append]
    by_cases hc : 1000 < (buf ++ [r]).length
    · have h1 : appendLog buf r = (buf ++ [r]).drop 1 := by
        unfold appendLog
        rw [if_pos hc]
      have hlen : ((buf ++ [r]).drop 1).length ≤ 1000 := by
        simpa using h
      rw [h1, ih _ hlen]
      rw [← List.drop_append_of_le_length (by simp)]
      rw [List.drop_drop, hsplit]
      have he : 1 + (((buf ++ [r]).drop 1).length + l.length - 1000)
          = buf.length + (r :: l).length - 1000 := by
        simp only [List.length_drop, List.length_append, List.length_cons,
          List.length_nil] at hc ⊢
        omega
      rw [he]
    · have h1 : appendLog buf r = buf ++ [r] := by
        unfold appendLog
        rw [if_neg hc]
      have hlen : (buf ++ [r]).length ≤ 1000 := by
        simp at hc ⊢
        omega
      rw [h1, ih _ hlen, hsplit]
      have he : (buf ++ [r]).length + l.length - 1000
          = buf.length + (r :: l).length - 1000 := by
        simp only [List.length_append, List.length_cons, List.length_nil]
        omega
      rw [he]

/-- C2: one append never grows a within-capacity buffer past 1000
records; a run of appends from the empty buffer leaves at most 1000
records, and past 1000 exactly the most recent 1000 in insertion order
(the suffix of the input); an id carried by no retained record is
unreachable through lookup, and no snapshot (`/logs` slice) can contain
a record the store no longer holds. -/
theorem C2_store_bounded (l : List LogRecord) :
    (∀ (buf : List LogRecord) (r : LogRecord), buf.length ≤ 1000 →
      (appendLog buf r).length ≤ 1000) ∧
    (appendAll [] l).length ≤ 1000 ∧
    (1000 < l.length → appendAll [] l = l.drop (l.length - 1000)) ∧
    (∀ log_id : String, (∀ r ∈ appendAll [] l, r.id ≠ log_id) →
      find_by_id (appendAll [] l) log_id = none) ∧
    (∀ (limit : Int) (r : LogRecord), r ∉ appendAll [] l →
      r ∉ get_recent_logs (appendAll [] l) limit) := by
  have key : appendAll [] l = l.drop (l.length - 1000) := by
    simpa using appendAll_eq_drop l [] (by simp)
  refine ⟨fun buf r h => appendLog_length_le buf r h, ?_, fun _ => key, ?_, ?_⟩
  · rw [key]
    simp only [List.length_drop]
    omega
  · intro log_id hall
    unfold find_by_id
    rw [List.find?_eq_none]
    intro r hr
    simpa using hall r hr
  · intro limit r hr hmem
    apply hr
    unfold get_recent_logs pySliceFrom at hmem
    split at hmem <;> exact List.mem_of_mem_drop hmem

/-- C2 witness: appending 1001 records to the empty buffer leaves
exactly the most recent 1000 — the oldest record is dropped. -/
theorem C2_store_bounded_witness :
    1000 < c2List.length ∧ appendAll [] c2List = c2List.drop 1 := by
  have hl : 1000 < c2List.length := by
    simp only [c2List, List.length_map, List.length_range]
    omega
  have h := (C2_store_bounded c2List).2.2.1 hl
  have hi : c2List.length - 1000 = 1 := by
    simp only [c2List, List.length_map, List.length_range]
  rw [hi] at h
  exact ⟨hl, h⟩

/-- The request-body timestamp plays no part in acknowledgment: the
handler never reads it. -/
theorem acknowledge_error_req_irrel (buf : List LogRecord) (log_id : String)
    (req req2 now : ℚ) :
    acknowledge_error buf log_id req now = acknowledge_error buf log_id req2 now := by
  induction buf with
  | nil => rfl
  | cons r rest ih =>
    unfold acknowledge_error
    split
    · rfl
    · rw [ih]

/-- When some record carries the id, acknowledgment reports success and
the record the id now finds is acknowledged and stamped with the server
clock. -/
theorem acknowledge_error_found (buf : List LogRecord) (log_id : String)
    (req now : ℚ) (h : ∃ r ∈ buf, r.id = log_id) :
    (acknowledge_error buf log_id req now).2 = .acknowledged log_id ∧
    ∃ r, find_by_id (acknowledge_error buf log_id req now).1 log_id = some r ∧
      r.acknowledged = true ∧ r.acknowledged_at = some now ∧ r.id = log_id := by
  induction buf with
  | nil => simp at h
  | cons a rest ih =>
    unfold acknowledge_error
    by_cases ha : a.id = log_id
    · rw [if_pos ha]
      refine ⟨rfl, { a with acknowledged := true, acknowledged_at := some now }, ?_, rfl, rfl, ha⟩
      unfold find_by_id
      rw [List.find?_cons_of_pos]
      simpa using ha
    · rw [if_neg ha]
      have hrest : ∃ r ∈ rest, r.id = log_id := by
        rcases h with ⟨r, hr, hid⟩
        rcases List.mem_cons.mp hr with h1 | h2
        · exact absurd (h1 ▸ hid) ha
        · exact ⟨r, h2, hid⟩
      obtain ⟨hres, r, hfind, hack, hat, hid⟩ := ih hrest
      refine ⟨hres, r, ?_, hack, hat, hid⟩
      unfold find_by_id at hfind ⊢
      rw [List.find?_cons_of_neg]
      · exact hfind
      · simpa using ha

/-- When no record carries the id, acknowledgment is a structured
not-found result and the buffer is left untouched. -/
theorem acknowledge_error_miss (buf : List LogRecord) (log_id : String)
    (req now : ℚ) (h : ∀ r ∈ buf, r.id ≠ log_id) :
    acknowledge_error buf log_id req now = (buf, .not_found log_id) := by
  induction buf with
  | nil => rfl
  | cons a rest ih =>
    unfold acknowledge_error
    rw [if_neg (h a (List.mem_cons_self a rest))]
    rw [ih (fun r hr => h r (List.mem_cons_of_mem a hr))]

/-- C4 counterexample: acknowledging id "a" with supplied request time 5
while the server clock reads 7 stamps acknowledged_at with 7, not with
the supplied 5. -/
theorem C4_counterexample :
    (acknowledge_error [recA] "a" 5 7).1.map
          (fun r => r.acknowledged_at) = [some 7] ∧
    some (7 : ℚ) ≠ some (5 : ℚ) := by
  constructor
  · rfl
  · simp

/-- C4 (amended): if a record with the id is in the store, acknowledge
sets its acknowledged field and stamps acknowledged_at with the server's
current clock time — not the supplied at_time, which is ignored — and
reports acknowledged (also when the record was already acknowledged); if
no record with the id is present, it reports a structured not-found
result, leaves the store unchanged, and never raises. -/
theorem C4_acknowledge_spec (buf : List LogRecord) (log_id : String)
    (req now : ℚ) :
    ((∃ r ∈ buf, r.id = log_id) →
      (acknowledge_error buf log_id req now).2 = .acknowledged log_id ∧
      ∃ r, find_by_id (acknowledge_error buf log_id req now).1 log_id = some r ∧
        r.acknowledged = true ∧ r.acknowledged_at = some now) ∧
    ((∀ r ∈ buf, r.id ≠ log_id) →
      acknowledge_error buf log_id req now = (buf, .not_found log_id)) ∧
    (∀ req2 : ℚ,
      acknowledge_error buf log_id req now = acknowledge_error buf log_id req2 now) := by
  refine ⟨fun h => ?_, fun h => acknowledge_error_miss buf log_id req now h,
    fun req2 => acknowledge_error_req_irrel buf log_id req req2 now⟩
  obtain ⟨hres, r, hfind, hack, hat, _⟩ := acknowledge_error_found buf log_id req now h
  exact ⟨hres, r, hfind, hack, hat⟩

/-- C4 witness: the amended theorem applied to a one-record store, in
both the found and the not-found case. -/
theorem C4_acknowledge_spec_witness :
    ((acknowledge_error [recA] "a" 5 7).2 = .acknowledged "a" ∧
      ∃ r, find_by_id (acknowledge_error [recA] "a" 5 7).1 "a"
          = some r ∧ r.acknowledged = true ∧ r.acknowledged_at = some 7) ∧
    acknowledge_error [recA] "zzz" 5 7 = ([recA], .not_found "zzz") :=
  ⟨(C4_acknowledge_spec _ "a" 5 7).1
      ⟨_, List.mem_singleton.mpr rfl, rfl⟩,
    (C4_acknowledge_spec _ "zzz" 5 7).2.1 (by decide)⟩

/-- C10: repeated acknowledgment overwrites acknowledged_at each time
with the server clock of that call (the request timestamp being ignored
entirely): after acknowledging the same id twice, the record holds the
second call's time. -/
theorem C10_ack_overwrites (buf : List LogRecord) (log_id : String)
    (req1 req2 t1 t2 : ℚ) (h : ∃ r ∈ buf, r.id = log_id) :
    (∀ (now req req2' : ℚ),
      acknowledge_error buf log_id req now = acknowledge_error buf log_id req2' now) ∧
    ∃ r, find_by_id
        (acknowledge_error (acknowledge_error buf log_id req1 t1).1 log_id req2 t2).1
        log_id = some r ∧ r.acknowledged = true ∧ r.acknowledged_at = some t2 := by
  refine ⟨fun now req req2' => acknowledge_error_req_irrel buf log_id req req2' now, ?_⟩
  obtain ⟨_, r1, hfind1, _, _, hid1⟩ := acknowledge_error_found buf log_id req1 t1 h
  have h1 : ∃ r ∈ (acknowledge_error buf log_id req1 t1).1, r.id = log_id := by
    refine ⟨r1, ?_, hid1⟩
    exact List.mem_of_find?_eq_some hfind1
  obtain ⟨_, r2, hfind2, hack2, hat2, _⟩ :=
    acknowledge_error_found (acknowledge_error buf log_id req1 t1).1 log_id req2 t2 h1
  exact ⟨r2, hfind2, hack2, hat2⟩

/-- C10 witness: acknowledging the one-record store twice, with server
clocks 5 then 9, leaves acknowledged_at at 9. -/
theorem C10_ack_overwrites_witness :
    ∃ r, find_by_id
        (acknowledge_error (acknowledge_error [recA] "a" 1 5).1
          "a" 2 9).1 "a" = some r ∧
      r.acknowledged = true ∧ r.acknowledged_at = some 9 :=
  (C10_ack_overwrites [recA] "a" 1 2 5 9
    ⟨_, List.mem_singleton.mpr rfl, rfl⟩).2

/-- Unconditional closed form of `get_stats`: on the empty buffer the
special-cased zeros coincide with the general formulas, ℚ division by
zero being zero. -/
theorem get_stats_eq (buf : List LogRecord) :
    get_stats buf =
      { total_logs := buf.length,
        error_count := (buf.filter (fun r => 400 ≤ effStatus r)).length,
        success_count :=
          buf.length - (buf.filter (fun r => 400 ≤ effStatus r)).length,
        error_rate :=
          ((buf.filter (fun r => 400 ≤ effStatus r)).length : ℚ)
            / (buf.length : ℚ) } := by
  cases buf with
  | nil => simp [get_stats]
  | cons a l => rfl

/-- C5: `/stats` reports the buffer size as total, the number of records
whose parsed status code is at least 400 as error_count, the difference
as success_count, and their ratio as error_rate; the empty store yields
all zeros, and the spec's scenario with status codes 200, 404, 500, 200
yields total 4, errors 2, successes 2, rate one half. -/
theorem C5_get_stats_spec (buf : List LogRecord) :
    (get_stats buf).total_logs = buf.length ∧
    (get_stats buf).error_count
      = (buf.filter (fun r => 400 ≤ effStatus r)).length ∧
    (get_stats buf).success_count
      = (get_stats buf).total_logs - (get_stats buf).error_count ∧
    (get_stats buf).error_rate
      = ((get_stats buf).error_count : ℚ) / ((get_stats buf).total_logs : ℚ) ∧
    get_stats []
      = { total_logs := 0, error_count := 0, success_count := 0,
          error_rate := 0 } ∧
    get_stats ([200, 404, 500, 200].map mkStatusRecord)
      = { total_logs := 4, error_count := 2, success_count := 2,
          error_rate := 1/2 } := by
  rw [get_stats_eq buf]
  refine ⟨rfl, rfl, rfl, rfl, rfl, ?_⟩
  rw [get_stats_eq]
  simp only [List.map_cons, List.map_nil]
  norm_num [mkStatusRecord, effStatus, defaultParsed, List.filter]

/-- C9: a record without parsed data contributes the default status 200
to `/stats`, below the error threshold, so it is counted as a success
and never as an error. -/
theorem C9_missing_status_success (buf : List LogRecord) (r : LogRecord)
    (h : r.parsed_data = none) :
    effStatus r = 200 ∧ ¬ (400 ≤ effStatus r) ∧
    (get_stats (buf ++ [r])).error_count = (get_stats buf).error_count ∧
    (get_stats (buf ++ [r])).success_count
      = (get_stats buf).success_count + 1 := by
  have hs : effStatus r = 200 := by simp [effStatus, h]
  have hnot : ¬ (400 ≤ effStatus r) := by rw [hs]; norm_num
  have hle : (buf.filter (fun x => 400 ≤ effStatus x)).length ≤ buf.length :=
    List.length_filter_le _ buf
  refine ⟨hs, hnot, ?_, ?_⟩
  · rw [get_stats_eq, get_stats_eq]
    simp [List.filter_append, hs]
  · rw [get_stats_eq, get_stats_eq]
    simp only [List.filter_append, List.length_append]
    simp [hs]
    omega

/-- C9 witness: the theorem applied to a record with no parsed data
appended to the empty store. -/
theorem C9_missing_status_success_witness :
    effStatus recA = 200 ∧ ¬ (400 ≤ effStatus recA) ∧
    (get_stats ([] ++ [recA])).error_count = (get_stats []).error_count ∧
    (get_stats ([] ++ [recA])).success_count
      = (get_stats []).success_count + 1 :=
  C9_missing_status_success [] recA rfl

/-- C8 counterexample: with one stored record and caller limit 0, `/logs`
returns the entire buffer — one record, exceeding the limit — because
the Python slice start `-0` degenerates to the whole list. -/
theorem C8_counterexample :
    get_recent_logs [recA] 0 = [recA] ∧
    ¬ ((get_recent_logs [recA] 0).length ≤ 0) := by
  decide

/-- C8 (amended): for every caller-supplied limit ≥ 1 (the default is
100), `/logs` returns exactly the most recent min(limit, total) records
in insertion order — the length-limit suffix of the buffer; a limit of 0
returns the entire buffer. -/
theorem C8_get_recent_spec (buf : List LogRecord) (limit : Int) :
    (1 ≤ limit →
      get_recent_logs buf limit = buf.drop (buf.length - limit.toNat) ∧
      (get_recent_logs buf limit).length = min limit.toNat buf.length) ∧
    get_recent_logs buf 0 = buf := by
  constructor
  · intro h
    have hneg : -limit < 0 := by omega
    have heq : get_recent_logs buf limit
        = buf.drop (buf.length - limit.toNat) := by
      unfold get_recent_logs pySliceFrom
      rw [if_pos hneg, neg_neg]
    refine ⟨heq, ?_⟩
    rw [heq]
    simp only [List.length_drop]
    omega
  · simp [get_recent_logs, pySliceFrom]

/-- C8 witness: the amended theorem applied at the one-record store with
limit 1. -/
theorem C8_get_recent_spec_witness :
    get_recent_logs [recA] 1 = [recA].drop ([recA].length - (1 : Int).toNat) ∧
    (get_recent_logs [recA] 1).length = min (1 : Int).toNat [recA].length :=
  (C8_get_recent_spec [recA] 1).1 (by norm_num)

/-- Erasing each element of `d` from `a :: x` skips the head when `a`
does not occur in `d`. -/
theorem foldl_erase_cons (a : Channel) (d : List Channel) :
    ∀ x : List Channel, a ∉ d →
      d.foldl (fun acc c => acc.erase c) (a :: x)
        = a :: d.foldl (fun acc c => acc.erase c) x := by
  induction d with
  | nil =>
    intro x _
    rfl
  | cons c cs ih =>
    intro x ha
    have hne : a ≠ c := fun hac => ha (hac ▸ List.mem_cons_self c cs)
    simp only [List.foldl_cons]
    rw [List.erase_cons_tail (by simpa using hne)]
    exact ih _ (fun hm => ha (List.mem_cons_of_mem c hm))

/-- On a duplicate-free connection list, removing each failed channel
with `list.remove` leaves precisely the channels whose send succeeded. -/
theorem foldl_erase_filter (sendOk : Channel → Bool) (active : List Channel)
    (h : active.Nodup) :
    (active.filter (fun c => !(sendOk c))).foldl
        (fun acc c => acc.erase c) active
      = active.filter sendOk := by
  induction active with
  | nil => rfl
  | cons a rest ih =>
    have ha : a ∉ rest := (List.nodup_cons.mp h).1
    have hrest : rest.Nodup := (List.nodup_cons.mp h).2
    by_cases hs : sendOk a
    · rw [List.filter_cons_of_neg (by simp [hs]),
        List.filter_cons_of_pos (by simp [hs])]
      rw [foldl_erase_cons a _ rest
        (fun hm => ha (List.mem_of_mem_filter hm))]
      rw [ih hrest]
    · rw [List.filter_cons_of_pos (by simp [hs]),
        List.filter_cons_of_neg (by simp [hs])]
      simp only [List.foldl_cons, List.erase_cons_head]
      exact ih hrest

/-- The channels that receive one `broadcast_log_data` message are those
whose send succeeds. -/
theorem broadcast_log_data_snd (sendOk : Channel → Bool) (l : List Channel) :
    (broadcast_log_data sendOk l).2 = l.filter sendOk := by
  cases l <;> rfl

/-- After one `broadcast_log_data` message on a duplicate-free list, the
registered channels are those whose send succeeded. -/
theorem broadcast_log_data_fst (sendOk : Channel → Bool) (l : List Channel)
    (h : l.Nodup) : (broadcast_log_data sendOk l).1 = l.filter sendOk := by
  cases l with
  | nil => rfl
  | cons a rest => exact foldl_erase_filter sendOk (a :: rest) h

/-- C6 counterexample: under `ConnectionManager.broadcast` a channel
whose send fails during one broadcast stays registered and receives the
next broadcast message, contradicting the claim that a failed channel is
unregistered during the same broadcast and never receives a subsequent
message. -/
theorem C6_counterexample :
    (ConnectionManager_broadcast (fun _ => false) [⟨0⟩]).1 = [⟨0⟩] ∧
    (⟨0⟩ : Channel) ∈ (ConnectionManager_broadcast (fun _ => true)
      (ConnectionManager_broadcast (fun _ => false) [⟨0⟩]).1).2 := by
  decide

/-- C6 (amended): for `broadcast_log_data` in `src/backend.py` the claim
holds on a duplicate-free channel list — delivery is attempted on every
registered channel, exactly the channels whose send succeeds receive the
message and remain registered, every channel whose send fails is
unregistered within the same broadcast and receives no subsequent
message, and broadcasting to zero channels is an error-free no-op.
`ConnectionManager.broadcast` in `src/backend/app/main.py` also attempts
every channel and is a no-op on zero channels, but leaves failed
channels registered. -/
theorem C6_broadcast_spec (sendOk : Channel → Bool) (active : List Channel)
    (h : active.Nodup) :
    (broadcast_log_data sendOk active).2 = active.filter sendOk ∧
    (broadcast_log_data sendOk active).1 = active.filter sendOk ∧
    (∀ c ∈ active, sendOk c = false →
      c ∉ (broadcast_log_data sendOk active).1) ∧
    (∀ c ∈ active, sendOk c = true →
      c ∈ (broadcast_log_data sendOk active).1 ∧
      c ∈ (broadcast_log_data sendOk active).2) ∧
    (∀ (sendOk2 : Channel → Bool) (c : Channel),
      c ∉ (broadcast_log_data sendOk active).1 →
      c ∉ (broadcast_log_data sendOk2 (broadcast_log_data sendOk active).1).2) ∧
    broadcast_log_data sendOk [] = ([], []) ∧
    (ConnectionManager_broadcast sendOk active).1 = active ∧
    (ConnectionManager_broadcast sendOk active).2 = active.filter sendOk ∧
    ConnectionManager_broadcast sendOk [] = ([], []) := by
  have hsnd := broadcast_log_data_snd sendOk active
  have hfst := broadcast_log_data_fst sendOk active h
  refine ⟨hsnd, hfst, ?_, ?_, ?_, rfl, ?_, ?_, rfl⟩
  · intro c hc hf
    rw [hfst]
    simp [List.mem_filter, hf]
  · intro c hc ht
    constructor
    · rw [hfst]
      exact List.mem_filter.mpr ⟨hc, ht⟩
    · rw [hsnd]
      exact List.mem_filter.mpr ⟨hc, ht⟩
  · intro sendOk2 c hnot hmem
    apply hnot
    rw [broadcast_log_data_snd sendOk2] at hmem
    exact List.mem_of_mem_filter hmem
  · cases active <;> rfl
  · cases active <;> rfl

/-- C6 witness: the amended theorem applied to two distinct channels of
which only channel 0 accepts the message. -/
theorem C6_broadcast_spec_witness :
    (broadcast_log_data (fun c => c.cid == 0) [⟨0⟩, ⟨1⟩]).2
      = [⟨0⟩, ⟨1⟩].filter (fun c => c.cid == 0) ∧
    (broadcast_log_data (fun c => c.cid == 0) [⟨0⟩, ⟨1⟩]).1
      = [⟨0⟩, ⟨1⟩].filter (fun c => c.cid == 0) :=
  ⟨(C6_broadcast_spec (fun c => c.cid == 0) [⟨0⟩, ⟨1⟩] (by decide)).1,
   (C6_broadcast_spec (fun c => c.cid == 0) [⟨0⟩, ⟨1⟩] (by decide)).2.1⟩

/-- C7: the ingestion id depends only on the millisecond and the line
hash, so two records ingested from the same line within the same
millisecond receive the identical id whatever the process hash seed is;
acknowledging that shared id marks only the first of the two records and
leaves the second silently untouched. -/
theorem C7_id_collision (pyhash : String → Int) (ms : Nat) (line : String)
    (t1 t2 : ℚ) (raw src : String) (req now : ℚ) :
    (ingestLine pyhash ms line t1 raw src).id
      = (ingestLine pyhash ms line t2 raw src).id ∧
    (acknowledge_error
        [ingestLine pyhash ms line t1 raw src,
          ingestLine pyhash ms line t2 raw src]
        (ingestLine pyhash ms line t2 raw src).id req now).1
      = [ackMark (ingestLine pyhash ms line t1 raw src) now,
          ingestLine pyhash ms line t2 raw src] ∧
    (ingestLine pyhash ms line t2 raw src).acknowledged = false := by
  refine ⟨rfl, ?_, rfl⟩
  unfold acknowledge_error
  rw [if_pos (show (ingestLine pyhash ms line t1 raw src).id
    = (ingestLine pyhash ms line t2 raw src).id from rfl)]
  rfl

end Shepherd
